import Mathlib

/-!
Verification of the helm release server (`cmd/tiller/release_server.go`, a
gRPC service managing versioned releases of charts on an orchestrator).

The server code is embedded shallowly: each Go function becomes a Lean
function of the same name.  The mutable environment (the release store and
the Kubernetes client) is made explicit: the store is passed and returned as
a value, the Kubernetes client is a pure function from operations to
results, and every externally visible operation is additionally recorded in
a trace so that frame conditions ("no store write", "the live check is
performed") can be stated.

The store driver (`pkg/storage/driver`) and the hook-event table
(`cmd/tiller/hooks.go`) are not part of the sources under verification;
they are modelled from the specification, as marked on each definition.
-/

namespace Helm

/-- Release status codes (`release.Status_Code` in the proto). -/
inductive StatusCode
  | unknown
  | deployed
  | superseded
  | deleted
  | failed
deriving DecidableEq, Repr, Inhabited

/-- The eight lifecycle hook events (`hooks.Events` values). -/
inductive Event
  | preInstallEv
  | postInstallEv
  | preDeleteEv
  | postDeleteEv
  | preUpgradeEv
  | postUpgradeEv
  | preRollbackEv
  | postRollbackEv
deriving DecidableEq, Repr, Inhabited

/-- `release.Status`: status code plus notes and a live-resources summary. -/
structure StatusRec where
  code : StatusCode
  notes : String
  resources : String
deriving DecidableEq, Repr, Inhabited

/-- `release.Info`: timestamps are modelled as integer seconds. -/
structure Info where
  status : StatusRec
  firstDeployed : Int
  lastDeployed : Int
  deleted : Int
deriving DecidableEq, Repr, Inhabited

/-- `release.Hook`.  `lastRun = none` models an unset timestamp. -/
structure Hook where
  name : String
  kind : String
  path : String
  manifest : String
  events : List Event
  lastRun : Option Int
deriving DecidableEq, Repr, Inhabited

/-- `release.Release`.  Chart and config contents are opaque to the server
code under verification, so they are modelled as identifiers. -/
structure Release where
  name : String
  namespc : String
  chart : Nat
  config : Nat
  version : Int
  manifest : String
  hooks : List Hook
  info : Info
deriving DecidableEq, Repr, Inhabited

/-- `r.Info.Status.Code = c` as a function (the Go code mutates in place). -/
def setStatusCode (r : Release) (c : StatusCode) : Release :=
  { r with info := { r.info with status := { r.info.status with code := c } } }

/-- Operations issued to the Kubernetes client (`environment.KubeClient`). -/
inductive KubeOp
  | create (ns : String) (body : String)
  | update (ns : String) (current : String) (target : String)
  | get (ns : String) (body : String)
  | delete (ns : String) (body : String)
  | watchUntilReady (ns : String) (body : String)
deriving DecidableEq, Repr

/-- A Kubernetes client is a pure map from operations to results; `.ok s`
carries the textual response (used only by `get`), `.error e` an error
message. -/
abbrev KubeClient : Type := KubeOp → Except String String

/-- Store (driver) errors.  Modelled from the spec: the ReleaseStore
contract of §4.3 (the driver implementations under `pkg/storage/driver`
are not part of the sources under verification). -/
inductive StoreErr
  | notFound
  | alreadyExists
deriving DecidableEq, Repr

/-- Store write operations, recorded in traces. -/
inductive StoreOp
  | create (r : Release)
  | update (r : Release)
  | delete (n : String) (v : Int)
deriving DecidableEq, Repr

/-- A traced effect: either a Kubernetes call or a store write. -/
inductive Op
  | kube (k : KubeOp)
  | store (s : StoreOp)
deriving DecidableEq, Repr

/-- The release store state: the list of persisted release records.
Modelled from the spec (§4.3): records are keyed by `(name, version)`. -/
abbrev Store : Type := List Release

/-- Modelled from the spec (§4.3): `Get(name, version)` is `NotFound` if
there is no exact match. -/
def storeGet (s : Store) (n : String) (v : Int) : Except StoreErr Release :=
  match s.find? (fun r => r.name = n && r.version = v) with
  | some r => .ok r
  | none => .error .notFound

/-- Modelled from the spec (§4.3): `Create(r)` fails with `AlreadyExists`
if `(r.name, r.version)` is present. -/
def storeCreate (s : Store) (r : Release) : Except StoreErr Store :=
  match s.find? (fun x => x.name = r.name && x.version = r.version) with
  | some _ => .error .alreadyExists
  | none => .ok (s ++ [r])

/-- Modelled from the spec (§4.3): `Update(r)` fails with `NotFound` if
`(r.name, r.version)` is absent, and overwrites in place otherwise. -/
def storeUpdate (s : Store) (r : Release) : Except StoreErr Store :=
  match s.find? (fun x => x.name = r.name && x.version = r.version) with
  | none => .error .notFound
  | some _ => .ok (s.map (fun x => if x.name = r.name && x.version = r.version then r else x))

/-- Modelled from the spec (§4.3): `Deployed(name)` returns the unique
DEPLOYED version of `name`, `NotFound` if none. -/
def storeDeployed (s : Store) (n : String) : Except StoreErr Release :=
  match s.find? (fun r => r.name = n && r.info.status.code = StatusCode.deployed) with
  | some r => .ok r
  | none => .error .notFound

/-- Server-level errors, one constructor per distinct error value the
source constructs. -/
inductive SrvErr
  | incompatibleVersion
  | missingChart
  | missingRelease
  | storeErr (e : StoreErr)
  | renderErr (e : String)
  | unknownHook (h : String)
  | kubeErr (e : String)
  | releaseFailed (n : String) (e : String)
  | updateStoreFailed (n : String) (e : StoreErr)
  | offsetNotFound (o : String)
  | noItemsAfter (o : String)
deriving DecidableEq, Repr

/-- `releaseNameMaxLen`: maximum length of a release name. -/
def releaseNameMaxLen : Nat := 14

/-- `ListDefaultLimit`: default limit for items returned in a list. -/
def ListDefaultLimit : Int := 512

/-- Modelled from the spec (§3, §4.5): the hook constants of
`cmd/tiller/hooks.go` — each lifecycle event's annotation string. -/
def preInstall : String := "pre-install"

/-- Modelled from the spec: the `post-install` event string. -/
def postInstall : String := "post-install"

/-- Modelled from the spec: the `pre-delete` event string. -/
def preDelete : String := "pre-delete"

/-- Modelled from the spec: the `post-delete` event string. -/
def postDelete : String := "post-delete"

/-- Modelled from the spec: the `pre-upgrade` event string. -/
def preUpgrade : String := "pre-upgrade"

/-- Modelled from the spec: the `post-upgrade` event string. -/
def postUpgrade : String := "post-upgrade"

/-- Modelled from the spec: the `pre-rollback` event string. -/
def preRollback : String := "pre-rollback"

/-- Modelled from the spec: the `post-rollback` event string. -/
def postRollback : String := "post-rollback"

/-- Modelled from the spec: the `events` table of `cmd/tiller/hooks.go`
mapping annotation strings to the eight lifecycle events (§3). -/
def events (h : String) : Option Event :=
  if h = preInstall then some .preInstallEv
  else if h = postInstall then some .postInstallEv
  else if h = preDelete then some .preDeleteEv
  else if h = postDelete then some .postDeleteEv
  else if h = preUpgrade then some .preUpgradeEv
  else if h = postUpgrade then some .postUpgradeEv
  else if h = preRollback then some .preRollbackEv
  else if h = postRollback then some .postRollbackEv
  else none

/-- The loop body of `execHook` (release_server.go): process the hooks in
list order; for a hook whose `events` contains `code`, `Create` then
`WatchUntilReady` it, set `LastRun` on success, and abort on the first
error, leaving the remaining hooks untouched.  Returns the (partially
updated) hook list, the trace of Kubernetes calls, and the error, if any. -/
def execHookRun (kube : KubeClient) (ns : String) (code : Event) (now : Int) :
    List Hook → List Hook × List KubeOp × Option String
  | [] => ([], [], none)
  | h :: t =>
    if h.events.contains code then
      match kube (.create ns h.manifest) with
      | .error e => (h :: t, [.create ns h.manifest], some e)
      | .ok _ =>
        match kube (.watchUntilReady ns h.manifest) with
        | .error e => (h :: t, [.create ns h.manifest, .watchUntilReady ns h.manifest], some e)
        | .ok _ =>
          let rest := execHookRun kube ns code now t
          ({ h with lastRun := some now } :: rest.1,
           .create ns h.manifest :: .watchUntilReady ns h.manifest :: rest.2.1,
           rest.2.2)
    else
      let rest := execHookRun kube ns code now t
      (h :: rest.1, rest.2.1, rest.2.2)

/-- `execHook` (release_server.go): look the event string up in the
`events` table (unknown strings are an error), then run the hooks. -/
def execHook (kube : KubeClient) (hs : List Hook) (_nm ns hook : String) (now : Int) :
    List Hook × List KubeOp × Option SrvErr :=
  match events hook with
  | none => (hs, [], some (.unknownHook hook))
  | some code =>
    let out := execHookRun kube ns code now hs
    (out.1, out.2.1, out.2.2.map .kubeErr)

/-- `recordRelease` (release_server.go): `Update` when reusing a name,
`Create` otherwise; a store failure is logged and swallowed (the store is
left as it was).  The attempted write is recorded in the trace. -/
def recordRelease (s : Store) (r : Release) (reuse : Bool) : Store × List StoreOp :=
  if reuse then
    match storeUpdate s r with
    | .ok s' => (s', [.update r])
    | .error _ => (s, [.update r])
  else
    match storeCreate s r with
    | .ok s' => (s', [.create r])
    | .error _ => (s, [.create r])

/-- `services.InstallReleaseRequest`, restricted to the fields
`performRelease` reads. -/
structure InstallReq where
  dryRun : Bool
  disableHooks : Bool
  reuseName : Bool
deriving DecidableEq, Repr

/-- A hook phase of an install/upgrade: skipped when hooks are disabled. -/
def hookPhase (disable : Bool) (kube : KubeClient) (hs : List Hook)
    (nm ns hook : String) (now : Int) : List Hook × List KubeOp × Option SrvErr :=
  if disable then (hs, [], none) else execHook kube hs nm ns hook now

/-- `performRelease` (release_server.go): the apply phase of an install.
Dry-run returns at once.  Otherwise: pre-install hooks (an error is
returned as-is, with nothing persisted), `KubeClient.Create` of the
manifest (on error the release is marked FAILED and recorded), post-install
hooks (likewise FAILED and recorded on error), and on success the release
is marked DEPLOYED and recorded. -/
def performRelease (kube : KubeClient) (s : Store) (r : Release) (req : InstallReq)
    (now : Int) : Except SrvErr Release × Store × List Op :=
  if req.dryRun then (.ok r, s, [])
  else
    let pre := hookPhase req.disableHooks kube r.hooks r.name r.namespc preInstall now
    match pre.2.2 with
    | some e => (.error e, s, pre.2.1.map .kube)
    | none =>
      let r1 := { r with hooks := pre.1 }
      match kube (.create r.namespc r1.manifest) with
      | .error e =>
        let rf := setStatusCode r1 .failed
        let rec1 := recordRelease s rf req.reuseName
        (.error (.releaseFailed r.name e), rec1.1,
         pre.2.1.map .kube ++ [.kube (.create r.namespc r1.manifest)] ++ rec1.2.map .store)
      | .ok _ =>
        let post := hookPhase req.disableHooks kube r1.hooks r.name r.namespc postInstall now
        match post.2.2 with
        | some e =>
          let rf := setStatusCode { r1 with hooks := post.1 } .failed
          let rec1 := recordRelease s rf req.reuseName
          (.error e, rec1.1,
           pre.2.1.map .kube ++ [.kube (.create r.namespc r1.manifest)]
             ++ post.2.1.map .kube ++ rec1.2.map .store)
        | none =>
          let rd := setStatusCode { r1 with hooks := post.1 } .deployed
          let rec1 := recordRelease s rd req.reuseName
          (.ok rd, rec1.1,
           pre.2.1.map .kube ++ [.kube (.create r.namespc r1.manifest)]
             ++ post.2.1.map .kube ++ rec1.2.map .store)

/-- `services.UpdateReleaseRequest`, restricted to the fields the server
reads.  `chart = none` models a nil chart. -/
structure UpdateReq where
  name : String
  chart : Option Nat
  values : Nat
  dryRun : Bool
  disableHooks : Bool
deriving DecidableEq, Repr

/-- The output of the (external) render-and-sort pipeline
(`renderResources`): sorted hooks, the aggregated manifest document, and
the rendered notes text. -/
structure Rendered where
  hooks : List Hook
  manifest : String
  notes : String
deriving DecidableEq, Repr

/-- `prepareUpdate` (release_server.go): validate the request, look up the
currently deployed release, and construct the updated release with
`version = current.version + 1` and `first_deployed` carried over.  The
render step is external and is passed in as `rendered` (`.error` models a
render failure). -/
def prepareUpdate (s : Store) (req : UpdateReq) (rendered : Except String Rendered)
    (now : Int) : Except SrvErr (Release × Release) :=
  if req.name = "" then .error .missingRelease
  else if req.chart.isNone then .error .missingChart
  else
    match storeDeployed s req.name with
    | .error e => .error (.storeErr e)
    | .ok currentRelease =>
      match rendered with
      | .error e => .error (.renderErr e)
      | .ok rend =>
        let updatedRelease : Release :=
          { name := req.name
            namespc := currentRelease.namespc
            chart := req.chart.getD 0
            config := req.values
            info :=
              { status :=
                  { code := .unknown
                    notes := if rend.notes.length > 0 then rend.notes else ""
                    resources := "" }
                firstDeployed := currentRelease.info.firstDeployed
                lastDeployed := now
                deleted := 0 }
            version := currentRelease.version + 1
            manifest := rend.manifest
            hooks := rend.hooks }
        .ok (currentRelease, updatedRelease)

/-- `performUpdate` (release_server.go): dry-run returns at once;
otherwise pre-upgrade hooks, `KubeClient.Update` from the original to the
updated manifest, post-upgrade hooks — each failure returns the error with
the store untouched — then the original release is marked SUPERSEDED and
updated in the store (a store failure is wrapped and surfaced), and the
updated release is marked DEPLOYED. -/
def performUpdate (kube : KubeClient) (s : Store) (originalRelease updatedRelease : Release)
    (req : UpdateReq) (now : Int) : Except SrvErr Release × Store × List Op :=
  if req.dryRun then (.ok updatedRelease, s, [])
  else
    let pre := hookPhase req.disableHooks kube updatedRelease.hooks updatedRelease.name
      updatedRelease.namespc preUpgrade now
    match pre.2.2 with
    | some e => (.error e, s, pre.2.1.map .kube)
    | none =>
      let u1 := { updatedRelease with hooks := pre.1 }
      let kop := KubeOp.update u1.namespc originalRelease.manifest u1.manifest
      match kube kop with
      | .error e => (.error (.kubeErr e), s, pre.2.1.map .kube ++ [.kube kop])
      | .ok _ =>
        let post := hookPhase req.disableHooks kube u1.hooks u1.name u1.namespc postUpgrade now
        match post.2.2 with
        | some e =>
          (.error e, s, pre.2.1.map .kube ++ [.kube kop] ++ post.2.1.map .kube)
        | none =>
          let u2 := { u1 with hooks := post.1 }
          let orig' := setStatusCode originalRelease .superseded
          let tr := pre.2.1.map Op.kube ++ [.kube kop] ++ post.2.1.map .kube
            ++ [.store (.update orig')]
          match storeUpdate s orig' with
          | .error se => (.error (.updateStoreFailed originalRelease.name se), s, tr)
          | .ok s1 => (.ok (setStatusCode u2 .deployed), s1, tr)

/-- `UpdateRelease` (release_server.go): version check, `prepareUpdate`,
`performUpdate`, and — unless dry-run — `Create` of the updated release
(a store failure here is surfaced). -/
def UpdateRelease (clientOk : Bool) (kube : KubeClient) (s : Store) (req : UpdateReq)
    (rendered : Except String Rendered) (now : Int) :
    Except SrvErr Release × Store × List Op :=
  if !clientOk then (.error .incompatibleVersion, s, [])
  else
    match prepareUpdate s req rendered now with
    | .error e => (.error e, s, [])
    | .ok (currentRelease, updatedRelease) =>
      match performUpdate kube s currentRelease updatedRelease req now with
      | (.error e, s', tr) => (.error e, s', tr)
      | (.ok updFinal, s', tr) =>
        if !req.dryRun then
          match storeCreate s' updFinal with
          | .error se => (.error (.storeErr se), s', tr ++ [.store (.create updFinal)])
          | .ok s2 => (.ok updFinal, s2, tr ++ [.store (.create updFinal)])
        else (.ok updFinal, s', tr)

/-- `services.RollbackReleaseRequest`, restricted to the fields the server
reads. -/
structure RollbackReq where
  name : String
  dryRun : Bool
  disableHooks : Bool
deriving DecidableEq, Repr

/-- `prepareRollback` (release_server.go): look up the deployed release
and the release one version below it, and construct the target release
with chart, config, manifest and hooks copied from the previous release
and `version = current.version + 1`. -/
def prepareRollback (s : Store) (req : RollbackReq) (now : Int) :
    Except SrvErr (Release × Release) :=
  if req.name = "" then .error .missingRelease
  else
    match storeDeployed s req.name with
    | .error e => .error (.storeErr e)
    | .ok currentRelease =>
      match storeGet s req.name (currentRelease.version - 1) with
      | .error e => .error (.storeErr e)
      | .ok previousRelease =>
        let targetRelease : Release :=
          { name := req.name
            namespc := currentRelease.namespc
            chart := previousRelease.chart
            config := previousRelease.config
            info :=
              { status :=
                  { code := .unknown
                    notes := previousRelease.info.status.notes
                    resources := "" }
                firstDeployed := currentRelease.info.firstDeployed
                lastDeployed := now
                deleted := 0 }
            version := currentRelease.version + 1
            manifest := previousRelease.manifest
            hooks := previousRelease.hooks }
        .ok (currentRelease, targetRelease)

/-- Driver errors as seen by `uniqName`'s store lookup: the
`ErrReleaseNotFound` sentinel, or any other driver error. -/
inductive DriverErr
  | notFound
  | other (msg : String)
deriving DecidableEq, Repr

/-- Outcome of `uniqName`. -/
inductive UniqRes
  | granted (n : String)
  | tooLong
  | inUse
  | alreadyExists
  | storePanic
  | generated
deriving DecidableEq, Repr

/-- `uniqName` (release_server.go), on its requested-name branch.  The
store lookup is the driver's `Get(start, 1)`, passed in as `g` returning
the Go pair `(rel, err)` with `rel = none` modelling a nil pointer.  The
Go code takes the not-taken branch only on `err == ErrReleaseNotFound`;
in every other case (including a non-nil, non-NotFound error) it
evaluates `rel.Info.Status.Code`, which on a nil `rel` is a nil-pointer
dereference, modelled as `.storePanic`.  The `start = ""` branch (random
name generation) is outside the claims and marked `.generated`. -/
def uniqName (g : String → Option Release × Option DriverErr)
    (start : String) (reuse : Bool) : UniqRes :=
  if start = "" then .generated
  else if start.length > releaseNameMaxLen then .tooLong
  else
    let (rel, err) := g start
    if err = some .notFound then .granted start
    else
      match rel with
      | none => .storePanic
      | some r =>
        if reuse && (r.info.status.code = .deleted || r.info.status.code = .failed) then
          .granted start
        else if reuse then .inUse
        else .alreadyExists

/-- `services.GetReleaseStatusRequest`. -/
structure StatusReq where
  name : String
  version : Int
deriving DecidableEq, Repr

/-- `services.GetReleaseStatusResponse`: the stored info plus the
namespace.  The response aliases the release's `Info` record, so a
live-resources summary attached there shows up in the response. -/
structure StatusResp where
  info : Info
  namespc : String
deriving DecidableEq, Repr

/-- `GetReleaseStatus` (release_server.go): look the release up (deployed
version when `version ≤ 0`), then call `KubeClient.Get` on its manifest —
unconditionally — and only afterwards branch: for a DELETED or FAILED
release the outcome of that call is ignored and the stored info is
returned; otherwise a `Get` error is surfaced and on success the live
resources are attached to the returned info.  The second component is the
trace of Kubernetes calls. -/
def GetReleaseStatus (clientOk : Bool) (kube : KubeClient) (s : Store)
    (req : StatusReq) : Except SrvErr StatusResp × List KubeOp :=
  if !clientOk then (.error .incompatibleVersion, [])
  else if req.name = "" then (.error .missingRelease, [])
  else
    let relE := if req.version ≤ 0 then storeDeployed s req.name
      else storeGet s req.name req.version
    match relE with
    | .error e => (.error (.storeErr e), [])
    | .ok rel =>
      let sc := rel.info.status.code
      let kop := KubeOp.get rel.namespc rel.manifest
      let resp := kube kop
      if sc = .deleted || sc = .failed then
        (.ok { info := rel.info, namespc := rel.namespc }, [kop])
      else
        match resp with
        | .error e => (.error (.kubeErr e), [kop])
        | .ok resources =>
          (.ok { info := { rel.info with status := { rel.info.status with resources := resources } }
                 namespc := rel.namespc }, [kop])

/-- `services.ListSort_SortBy`. -/
inductive ListSortBy
  | unknownSort
  | byName
  | byLastReleased
deriving DecidableEq, Repr

/-- `services.ListSort_SortOrder`. -/
inductive ListSortOrder
  | asc
  | desc
deriving DecidableEq, Repr

/-- `services.ListReleasesRequest`. -/
structure ListReq where
  limit : Int
  offset : String
  sortBy : ListSortBy
  sortOrder : ListSortOrder
  statusCodes : List StatusCode
  filter : String
deriving DecidableEq, Repr

/-- `services.ListReleasesResponse`. -/
structure ListResp where
  next : String
  count : Int
  total : Int
  releases : List Release
deriving DecidableEq, Repr

/-- Insertion step of the sort used for `sort.Sort(byName rels)` /
`sort.Sort(byDate rels)`.  (Go's sort is unspecified on ties; the model
commits to a stable insertion sort, which satisfies the same `Less`
contract.) -/
def insertRel (le : Release → Release → Bool) (a : Release) :
    List Release → List Release
  | [] => [a]
  | b :: t => if le a b then a :: b :: t else b :: insertRel le a t

/-- Sort a release list by the given strict-order test. -/
def sortReleases (le : Release → Release → Bool) : List Release → List Release
  | [] => []
  | a :: t => insertRel le a (sortReleases le t)

/-- The index the offset loop of `ListReleases` computes: the loop
`for ii, cur := range rels { if cur.Name == offset { i = ii } }` keeps the
LAST index whose name equals the offset, `none` when there is no match. -/
def lastIndexOfName (o : String) : List Release → Option Nat
  | [] => none
  | r :: t =>
    match lastIndexOfName o t with
    | some i => some (i + 1)
    | none => if r.name = o then some 0 else none

/-- The filter/sort/offset pipeline of `ListReleases` (release_server.go),
up to but excluding the limit step.  `rmatch pat nm` is the regexp oracle
for `filterReleases` (pattern-compile failures are not modelled).  The
status filter is the store's `ListFilterAll` — modelled from the spec
(§4.3) as a list filter.  Returns the offset-adjusted list together with
the pre-offset total. -/
def listProcess (s : Store) (req : ListReq) (rmatch : String → String → Bool) :
    Except SrvErr (List Release × Int) :=
  let codes := if req.statusCodes = [] then [StatusCode.deployed] else req.statusCodes
  let rels0 := s.filter (fun r => codes.contains r.info.status.code)
  let rels1 := if req.filter ≠ "" then rels0.filter (fun r => rmatch req.filter r.name)
    else rels0
  let total : Int := rels1.length
  let rels2 :=
    match req.sortBy with
    | .byName => sortReleases (fun a b => decide (a.name < b.name)) rels1
    | .byLastReleased => sortReleases (fun a b => decide (a.info.lastDeployed < b.info.lastDeployed)) rels1
    | .unknownSort => rels1
  let rels3 := if req.sortOrder = .desc then rels2.reverse else rels2
  if req.offset ≠ "" then
    match lastIndexOfName req.offset rels3 with
    | none => .error (.offsetNotFound req.offset)
    | some i =>
      if rels3.length < i then .error (.noItemsAfter req.offset)
      else .ok (rels3.drop i, total)
  else .ok (rels3, total)

/-- The limit applied by `ListReleases`: `0` means `ListDefaultLimit`. -/
def effectiveLimit (l : Int) : Int :=
  if l = 0 then ListDefaultLimit else l

/-- `ListReleases` (release_server.go): run the pipeline, default the
limit, and when more items remain than the limit, truncate to `limit`
items and set `next` to the name of the first release past the page.
`none` models the Go panic of indexing `rels[limit]` with a negative
limit. -/
def ListReleases (clientOk : Bool) (s : Store) (req : ListReq)
    (rmatch : String → String → Bool) : Option (Except SrvErr ListResp) :=
  if !clientOk then some (.error .incompatibleVersion)
  else
    match listProcess s req rmatch with
    | .error e => some (.error e)
    | .ok (rels, total) =>
      let lim := effectiveLimit req.limit
      if (rels.length : Int) > lim then
        if lim < 0 then none
        else
          let k := lim.toNat
          some (.ok { next := ((rels.drop k).headD default).name
                      count := ((rels.take k).length : Int)
                      total := total
                      releases := rels.take k })
      else
        some (.ok { next := "", count := (rels.length : Int), total := total,
                    releases := rels })

/-! ### Concrete fixtures used by witnesses and counterexamples -/

/-- A hook carrying the pre-install event. -/
def hookA : Hook :=
  { name := "h", kind := "Job", path := "t/h.yaml", manifest := "HOOKM",
    events := [.preInstallEv], lastRun := none }

/-- A fresh release about to be installed. -/
def relA : Release :=
  { name := "a", namespc := "default", chart := 1, config := 1, version := 1,
    manifest := "MANIFEST", hooks := [hookA],
    info := { status := { code := .unknown, notes := "", resources := "" },
              firstDeployed := 0, lastDeployed := 0, deleted := 0 } }

/-- Version 1 of release `b`, superseded. -/
def relB1 : Release :=
  { name := "b", namespc := "default", chart := 3, config := 4, version := 1,
    manifest := "B1MANIFEST", hooks := [],
    info := { status := { code := .superseded, notes := "n1", resources := "" },
              firstDeployed := 10, lastDeployed := 10, deleted := 0 } }

/-- Version 2 of release `b`, currently deployed. -/
def relB2 : Release :=
  { name := "b", namespc := "default", chart := 5, config := 6, version := 2,
    manifest := "B2MANIFEST", hooks := [],
    info := { status := { code := .deployed, notes := "n2", resources := "" },
              firstDeployed := 10, lastDeployed := 20, deleted := 0 } }

/-- A deleted release. -/
def relD : Release :=
  { name := "d", namespc := "default", chart := 7, config := 8, version := 1,
    manifest := "DMANIFEST", hooks := [],
    info := { status := { code := .deleted, notes := "", resources := "" },
              firstDeployed := 1, lastDeployed := 2, deleted := 3 } }

/-- Version 2 of `b` after being superseded. -/
def relB2sup : Release := setStatusCode relB2 .superseded

/-- The release a concrete upgrade of `b` constructs: version 3, deployed,
first-deployed carried over from version 2. -/
def relC3 : Release :=
  { name := "b", namespc := "default", chart := 9, config := 10, version := 3,
    manifest := "B3MANIFEST", hooks := [],
    info := { status := { code := .deployed, notes := "", resources := "" },
              firstDeployed := 10, lastDeployed := 40, deleted := 0 } }

/-- A deployed release named `e1`. -/
def relE1 : Release :=
  { name := "e1", namespc := "default", chart := 11, config := 11, version := 1,
    manifest := "E1", hooks := [],
    info := { status := { code := .deployed, notes := "", resources := "" },
              firstDeployed := 1, lastDeployed := 1, deleted := 0 } }

/-- A deployed release named `e2`. -/
def relE2 : Release :=
  { name := "e2", namespc := "default", chart := 12, config := 12, version := 1,
    manifest := "E2", hooks := [],
    info := { status := { code := .deployed, notes := "", resources := "" },
              firstDeployed := 2, lastDeployed := 2, deleted := 0 } }

/-- A list request with limit 1 and all defaults. -/
def reqL : ListReq :=
  { limit := 1, offset := "", sortBy := .unknownSort, sortOrder := .asc,
    statusCodes := [], filter := "" }

/-- The two Kubernetes calls a single hook submission makes, in order. -/
def hookOps (ns : String) (h : Hook) : List KubeOp :=
  [.create ns h.manifest, .watchUntilReady ns h.manifest]

/-- The full submission trace of the hooks matching `code`, in list
order. -/
def hooksTrace (ns : String) (code : Event) : List Hook → List KubeOp
  | [] => []
  | h :: t =>
    if h.events.contains code then hookOps ns h ++ hooksTrace ns code t
    else hooksTrace ns code t

/-! ### C5 — dry-run install touches neither the store nor the orchestrator -/

/-- C5: for every install request with dry-run set, `performRelease`
returns the constructed release unchanged, leaves the store as it was, and
issues no operation at all — in particular no store `Create`/`Update`, no
hook submission and no manifest create. -/
theorem performRelease_dryRun (kube : KubeClient) (s : Store) (r : Release)
    (req : InstallReq) (now : Int) (h : req.dryRun = true) :
    performRelease kube s r req now = (.ok r, s, []) := by
  simp [performRelease, h]

/-- Witness for C5 at a concrete dry-run request. -/
theorem performRelease_dryRun_witness :
    performRelease (fun _ => .ok "") [] relA
      { dryRun := true, disableHooks := false, reuseName := false } 0
      = (.ok relA, [], []) :=
  performRelease_dryRun _ _ _ _ _ rfl

/-! ### C4 — name allocation for a requested name -/

/-- C4: `uniqName` with a non-empty requested name: a name longer than 14
characters fails TooLong (14 itself passes this check); when `Get(name,1)`
reports `ErrReleaseNotFound` the name is granted; when the release exists,
it is granted if `reuse` holds and its status is DELETED or FAILED,
re-use of a live name fails InUse, and without `reuse` the request fails
AlreadyExists. -/
theorem uniqName_requested (g : String → Option Release × Option DriverErr)
    (start : String) (reuse : Bool) (rel : Release) (hne : start ≠ "") :
    (start.length > releaseNameMaxLen → uniqName g start reuse = .tooLong) ∧
    (start.length ≤ releaseNameMaxLen → g start = (none, some .notFound) →
      uniqName g start reuse = .granted start) ∧
    (start.length ≤ releaseNameMaxLen → g start = (some rel, none) → reuse = true →
      (rel.info.status.code = .deleted ∨ rel.info.status.code = .failed) →
      uniqName g start reuse = .granted start) ∧
    (start.length ≤ releaseNameMaxLen → g start = (some rel, none) → reuse = true →
      ¬(rel.info.status.code = .deleted ∨ rel.info.status.code = .failed) →
      uniqName g start reuse = .inUse) ∧
    (start.length ≤ releaseNameMaxLen → g start = (some rel, none) → reuse = false →
      uniqName g start reuse = .alreadyExists) := by
  refine ⟨?_, ?_, ?_, ?_, ?_⟩
  · intro hl
    simp [uniqName, hne, Nat.lt_iff_add_one_le.mp hl, hl]
  · intro hl hg
    simp [uniqName, hne, Nat.not_lt.mpr hl, hg]
  · intro hl hg hr hst
    rcases hst with hst | hst <;>
      simp [uniqName, hne, Nat.not_lt.mpr hl, hg, hr, hst]
  · intro hl hg hr hst
    push_neg at hst
    simp [uniqName, hne, Nat.not_lt.mpr hl, hg, hr, hst.1, hst.2]
  · intro hl hg hr
    simp [uniqName, hne, Nat.not_lt.mpr hl, hg, hr]

/-- Witness for C4: a free 3-character name is granted. -/
theorem uniqName_requested_witness :
    uniqName (fun _ => (none, some .notFound)) "abc" false = .granted "abc" :=
  (uniqName_requested (fun _ => (none, some .notFound)) "abc" false default
    (by decide)).2.1 (by decide) rfl

/-! ### C9 — the source dereferences a possibly-nil release -/

/-- C9: evaluation of the code at the failing input.  When `Get(start, 1)`
returns a driver error other than `ErrReleaseNotFound` together with a nil
release — as a non-memory driver can — `uniqName` falls into the branch
that reads `rel.Info.Status.Code` and dereferences the nil pointer,
instead of returning the error as the specification requires. -/
theorem uniqName_nil_deref :
    uniqName (fun _ => (none, some (.other "connection refused"))) "foo" false
      = .storePanic := by decide

/-! ### C3 — rollback copies the previous release verbatim -/

/-- C3: for a rollback of a name whose deployed release is `cur`: if
`Get(name, cur.version - 1)` is NotFound the operation fails with
NotFound; otherwise the target release copies chart, config, manifest and
hooks verbatim from that previous release and carries version
`cur.version + 1`. -/
theorem prepareRollback_spec (s : Store) (req : RollbackReq) (now : Int)
    (cur : Release) (hne : req.name ≠ "")
    (hdep : storeDeployed s req.name = .ok cur) :
    (storeGet s req.name (cur.version - 1) = .error .notFound →
      prepareRollback s req now = .error (.storeErr .notFound)) ∧
    (∀ prev, storeGet s req.name (cur.version - 1) = .ok prev →
      ∃ tgt, prepareRollback s req now = .ok (cur, tgt) ∧
        tgt.chart = prev.chart ∧ tgt.config = prev.config ∧
        tgt.manifest = prev.manifest ∧ tgt.hooks = prev.hooks ∧
        tgt.version = cur.version + 1) := by
  constructor
  · intro hget
    simp [prepareRollback, hne, hdep, hget]
  · intro prev hget
    refine ⟨{ name := req.name, namespc := cur.namespc, chart := prev.chart,
              config := prev.config, version := cur.version + 1,
              manifest := prev.manifest, hooks := prev.hooks,
              info := { status := { code := .unknown, notes := prev.info.status.notes,
                                    resources := "" },
                        firstDeployed := cur.info.firstDeployed, lastDeployed := now,
                        deleted := 0 } }, ?_, rfl, rfl, rfl, rfl, rfl⟩
    simp [prepareRollback, hne, hdep, hget]

/-- Witness for C3 at a concrete two-version history: rolling back from
version 2 of `b` copies version 1's contents into a version-3 target. -/
theorem prepareRollback_spec_witness :
    ∃ tgt, prepareRollback [relB1, relB2] { name := "b", dryRun := false, disableHooks := false } 30
        = .ok (relB2, tgt) ∧
      tgt.chart = relB1.chart ∧ tgt.config = relB1.config ∧
      tgt.manifest = relB1.manifest ∧ tgt.hooks = relB1.hooks ∧
      tgt.version = relB2.version + 1 :=
  (prepareRollback_spec [relB1, relB2] { name := "b", dryRun := false, disableHooks := false }
    30 relB2 (by decide) rfl).2 relB1 rfl

/-! ### C1 — failure handling in the install apply phase -/

/-- C1, counterexample to the claim as stated: with a failing orchestrator
and a pre-install hook present, the pre-install hook phase fails and the
error is returned, but the store is left empty and no store write is even
attempted — the release is NOT marked FAILED and NOT persisted, contrary
to the claim that any failing apply step persists a FAILED record. -/
theorem performRelease_preHook_not_recorded :
    performRelease (fun _ => .error "boom") [] relA
      { dryRun := false, disableHooks := false, reuseName := false } 7
      = (.error (.kubeErr "boom"), [], [.kube (.create "default" "HOOKM")]) := rfl

/-- C1 as amended: for a non-dry-run install, a failure of the orchestrator
create of the manifest or of the post-install hook phase marks the release
FAILED, records it via `recordRelease` (a best-effort store write), and
returns the error; a failure of the pre-install hook phase returns the
error with the store untouched and no write attempted. -/
theorem performRelease_failure_paths (kube : KubeClient) (s : Store) (r : Release)
    (req : InstallReq) (now : Int) (hdry : req.dryRun = false) :
    (∀ hs1 tr e,
      hookPhase req.disableHooks kube r.hooks r.name r.namespc preInstall now
        = (hs1, tr, some e) →
      performRelease kube s r req now = (.error e, s, tr.map .kube)) ∧
    (∀ hs1 tr,
      hookPhase req.disableHooks kube r.hooks r.name r.namespc preInstall now
        = (hs1, tr, none) →
      ∀ e, kube (.create r.namespc r.manifest) = .error e →
      performRelease kube s r req now =
        (.error (.releaseFailed r.name e),
         (recordRelease s (setStatusCode { r with hooks := hs1 } .failed) req.reuseName).1,
         tr.map .kube ++ [.kube (.create r.namespc r.manifest)] ++
           (recordRelease s (setStatusCode { r with hooks := hs1 } .failed)
             req.reuseName).2.map .store)) ∧
    (∀ hs1 tr v,
      hookPhase req.disableHooks kube r.hooks r.name r.namespc preInstall now
        = (hs1, tr, none) →
      kube (.create r.namespc r.manifest) = .ok v →
      ∀ hs2 tr2 e,
      hookPhase req.disableHooks kube hs1 r.name r.namespc postInstall now
        = (hs2, tr2, some e) →
      performRelease kube s r req now =
        (.error e,
         (recordRelease s (setStatusCode { r with hooks := hs2 } .failed) req.reuseName).1,
         tr.map .kube ++ [.kube (.create r.namespc r.manifest)] ++ tr2.map .kube ++
           (recordRelease s (setStatusCode { r with hooks := hs2 } .failed)
             req.reuseName).2.map .store)) := by
  refine ⟨?_, ?_, ?_⟩
  · intro hs1 tr e hpre
    simp [performRelease, hdry, hpre]
  · intro hs1 tr hpre e hcr
    simp [performRelease, hdry, hpre, hcr]
  · intro hs1 tr v hpre hcr hs2 tr2 e hpost
    simp [performRelease, hdry, hpre, hcr, hpost]

/-- Witness for the amended C1: with an orchestrator that accepts the hook
but rejects the manifest, the install records a FAILED release. -/
theorem performRelease_failure_paths_witness :
    performRelease
      (fun op => match op with
        | .create _ "MANIFEST" => .error "boom"
        | _ => .ok "")
      [] relA { dryRun := false, disableHooks := false, reuseName := false } 7
      = (.error (.releaseFailed "a" "boom"),
         (recordRelease [] (setStatusCode { relA with hooks := [{ hookA with lastRun := some 7 }] } .failed) false).1,
         [Op.kube (.create "default" "HOOKM"), .kube (.watchUntilReady "default" "HOOKM")]
           ++ [.kube (.create "default" "MANIFEST")]
           ++ (recordRelease [] (setStatusCode { relA with hooks := [{ hookA with lastRun := some 7 }] } .failed) false).2.map .store) :=
  (performRelease_failure_paths
      (fun op => match op with
        | .create _ "MANIFEST" => .error "boom"
        | _ => .ok "")
      [] relA { dryRun := false, disableHooks := false, reuseName := false } 7 rfl).2.1
    [{ hookA with lastRun := some 7 }]
    [.create "default" "HOOKM", .watchUntilReady "default" "HOOKM"]
    (by decide) "boom" rfl

/-! ### C6 — release status of a DELETED or FAILED release -/

/-- C6, counterexample to the claim as stated: for a DELETED release the
live `KubeClient.Get` check is NOT skipped — the call is issued before the
status test, as the non-empty Kubernetes trace shows (only its outcome is
then ignored). -/
theorem GetReleaseStatus_deleted_still_calls_get :
    GetReleaseStatus true (fun _ => .ok "live") [relD] { name := "d", version := 1 }
      = (.ok { info := relD.info, namespc := "default" },
         [KubeOp.get "default" "DMANIFEST"]) := rfl

/-- C6 as amended: for a release whose stored status is DELETED or FAILED,
`GetReleaseStatus` still issues the live `KubeClient.Get` call, but its
outcome — success or error — is ignored: for every Kubernetes client the
response is precisely the stored info plus the namespace, with no live
resources attached. -/
theorem GetReleaseStatus_deleted_failed (kube : KubeClient) (s : Store)
    (req : StatusReq) (rel : Release) (hne : req.name ≠ "")
    (hlook : (if req.version ≤ 0 then storeDeployed s req.name
              else storeGet s req.name req.version) = .ok rel)
    (hsc : rel.info.status.code = .deleted ∨ rel.info.status.code = .failed) :
    GetReleaseStatus true kube s req =
      (.ok { info := rel.info, namespc := rel.namespc },
       [KubeOp.get rel.namespc rel.manifest]) := by
  rcases hsc with hsc | hsc <;> simp [GetReleaseStatus, hne, hlook, hsc]

/-- Witness for the amended C6: even a failing live check is ignored for a
deleted release. -/
theorem GetReleaseStatus_deleted_failed_witness :
    GetReleaseStatus true (fun _ => .error "cluster down") [relD]
      { name := "d", version := 1 }
      = (.ok { info := relD.info, namespc := relD.namespc },
         [KubeOp.get relD.namespc relD.manifest]) :=
  GetReleaseStatus_deleted_failed (fun _ => .error "cluster down") [relD]
    { name := "d", version := 1 } relD (by decide) rfl (Or.inl rfl)

/-! ### C2 / C10 — upgrade bookkeeping -/

/-- Helper: a successful `prepareUpdate` read the deployed release and
built the updated one with a bumped version and carried-over
`first_deployed`. -/
theorem prepareUpdate_ok (s : Store) (req : UpdateReq)
    (rendered : Except String Rendered) (now : Int) (cur upd : Release)
    (h : prepareUpdate s req rendered now = .ok (cur, upd)) :
    storeDeployed s req.name = .ok cur ∧ upd.version = cur.version + 1 ∧
      upd.info.firstDeployed = cur.info.firstDeployed ∧
      upd.info.status.code = .unknown ∧ upd.name = req.name := by
  simp only [prepareUpdate] at h
  repeat' split at h
  all_goals simp_all
  all_goals (obtain ⟨h1, h2⟩ := h; subst h1; subst h2; simp_all)

/-- Helper: a successful non-dry-run `performUpdate` marked the original
release SUPERSEDED and updated it in the store, and returned the updated
release marked DEPLOYED (with the hook list as left by the hook phases). -/
theorem performUpdate_ok (kube : KubeClient) (s : Store) (orig upd : Release)
    (req : UpdateReq) (now : Int) (rel : Release) (s' : Store) (tr : List Op)
    (hdry : req.dryRun = false)
    (h : performUpdate kube s orig upd req now = (.ok rel, s', tr)) :
    ∃ hooks2, rel = setStatusCode { upd with hooks := hooks2 } .deployed ∧
      storeUpdate s (setStatusCode orig .superseded) = .ok s' := by
  simp only [performUpdate, hdry, Bool.false_eq_true, if_false] at h
  rcases hpre : hookPhase req.disableHooks kube upd.hooks upd.name upd.namespc
      preUpgrade now with ⟨hs1, tr1, e1⟩
  rw [hpre] at h
  cases e1 with
  | some e => simp at h
  | none =>
    simp only at h
    rcases hku : kube (KubeOp.update upd.namespc orig.manifest upd.manifest) with e | v
    · rw [hku] at h; simp at h
    · rw [hku] at h
      simp only at h
      rcases hpost : hookPhase req.disableHooks kube hs1 upd.name upd.namespc
          postUpgrade now with ⟨hs2, tr2, e2⟩
      rw [hpost] at h
      cases e2 with
      | some e => simp at h
      | none =>
        simp only at h
        rcases hsu : storeUpdate s (setStatusCode orig .superseded) with se | s1
        · rw [hsu] at h; simp at h
        · rw [hsu] at h
          have h1 := congrArg (fun t => t.1) h
          have h2 := congrArg (fun t => t.2.1) h
          simp only at h1 h2
          injection h1 with h1
          refine ⟨hs2, h1.symm, ?_⟩
          rw [← h2]

/-- C2: for every successful non-dry-run upgrade, the previously deployed
release `cur` (as found by the store's `Deployed`) is updated in the store
with status SUPERSEDED, and the returned release is created in the store
with version `cur.version + 1`, status DEPLOYED and `first_deployed`
carried over from `cur`. -/
theorem UpdateRelease_success (kube : KubeClient) (s : Store) (req : UpdateReq)
    (rendered : Except String Rendered) (now : Int) (rel : Release) (s' : Store)
    (tr : List Op) (hdry : req.dryRun = false)
    (h : UpdateRelease true kube s req rendered now = (.ok rel, s', tr)) :
    ∃ cur s1,
      storeDeployed s req.name = .ok cur ∧
      rel.version = cur.version + 1 ∧
      rel.info.status.code = .deployed ∧
      rel.info.firstDeployed = cur.info.firstDeployed ∧
      storeUpdate s (setStatusCode cur .superseded) = .ok s1 ∧
      storeCreate s1 rel = .ok s' := by
  simp only [UpdateRelease, Bool.not_true, if_false] at h
  rcases hprep : prepareUpdate s req rendered now with e | ⟨cur, upd⟩
  · rw [hprep] at h; simp at h
  · rw [hprep] at h
    simp only at h
    rcases hperf : performUpdate kube s cur upd req now with ⟨res, s1, tr1⟩
    rw [hperf] at h
    cases res with
    | error e => simp at h
    | ok updFinal =>
      simp only [hdry, Bool.not_false, if_true] at h
      rcases hsc : storeCreate s1 updFinal with se | s2
      · rw [hsc] at h; simp at h
      · rw [hsc] at h
        have h1 := congrArg (fun t => t.1) h
        have h2 := congrArg (fun t => t.2.1) h
        simp only at h1 h2
        injection h1 with h1
        obtain ⟨hdep, hver, hfd, hst, hnm⟩ := prepareUpdate_ok s req rendered now cur upd hprep
        obtain ⟨hooks2, hshape, hsu⟩ := performUpdate_ok kube s cur upd req now updFinal s1 tr1 hdry hperf
        refine ⟨cur, s1, hdep, ?_, ?_, ?_, hsu, ?_⟩
        · rw [← h1, hshape]; simpa [setStatusCode] using hver
        · rw [← h1, hshape]; simp [setStatusCode]
        · rw [← h1, hshape]; simpa [setStatusCode] using hfd
        · rw [← h1, ← h2]; exact hsc

/-- Helper: `performUpdate` changes the store only on full success — every
error path returns the input store unchanged. -/
theorem performUpdate_err_frame (kube : KubeClient) (s : Store) (orig upd : Release)
    (req : UpdateReq) (now : Int) (e : SrvErr) (s' : Store) (tr : List Op)
    (h : performUpdate kube s orig upd req now = (.error e, s', tr)) : s' = s := by
  by_cases hdry : req.dryRun = true
  · simp [performUpdate, hdry] at h
  · rw [Bool.not_eq_true] at hdry
    simp only [performUpdate, hdry, Bool.false_eq_true, if_false] at h
    rcases hpre : hookPhase req.disableHooks kube upd.hooks upd.name upd.namespc
        preUpgrade now with ⟨hs1, tr1, e1⟩
    rw [hpre] at h
    cases e1 with
    | some e0 =>
      have h2 := congrArg (fun t => t.2.1) h
      simp only at h2
      exact h2.symm
    | none =>
      simp only at h
      rcases hku : kube (KubeOp.update upd.namespc orig.manifest upd.manifest) with e0 | v
      · rw [hku] at h
        have h2 := congrArg (fun t => t.2.1) h
        simp only at h2
        exact h2.symm
      · rw [hku] at h
        simp only at h
        rcases hpost : hookPhase req.disableHooks kube hs1 upd.name upd.namespc
            postUpgrade now with ⟨hs2, tr2, e2⟩
        rw [hpost] at h
        cases e2 with
        | some e0 =>
          have h2 := congrArg (fun t => t.2.1) h
          simp only at h2
          exact h2.symm
        | none =>
          simp only at h
          rcases hsu : storeUpdate s (setStatusCode orig .superseded) with se | s1
          · rw [hsu] at h
            have h2 := congrArg (fun t => t.2.1) h
            simp only at h2
            exact h2.symm
          · rw [hsu] at h
            simp at h

/-- C10: for every upgrade that fails during the pre-upgrade hook phase,
the orchestrator update, or the post-upgrade hook phase — exactly the
failures surfacing as a raw orchestrator error (`SrvErr.kubeErr`) — the
store is left unchanged: no new release record is created and the
previously deployed record keeps its status (neither SUPERSEDED nor
FAILED). -/
theorem UpdateRelease_apply_failure_frame (kube : KubeClient) (s : Store)
    (req : UpdateReq) (rendered : Except String Rendered) (now : Int)
    (msg : String) (s' : Store) (tr : List Op)
    (h : UpdateRelease true kube s req rendered now = (.error (.kubeErr msg), s', tr)) :
    s' = s := by
  simp only [UpdateRelease, Bool.not_true, if_false] at h
  rcases hprep : prepareUpdate s req rendered now with e | ⟨cur, upd⟩
  · rw [hprep] at h
    have h2 := congrArg (fun t => t.2.1) h
    simp only at h2
    exact h2.symm
  · rw [hprep] at h
    simp only at h
    rcases hperf : performUpdate kube s cur upd req now with ⟨res, s1, tr1⟩
    rw [hperf] at h
    cases res with
    | error e0 =>
      simp only at h
      have h2 := congrArg (fun t => t.2.1) h
      simp only at h2
      rw [← h2]
      exact performUpdate_err_frame kube s cur upd req now e0 s1 tr1 hperf
    | ok updFinal =>
      by_cases hdry : req.dryRun = true
      · simp [hdry] at h
      · rw [Bool.not_eq_true] at hdry
        simp only [hdry, Bool.not_false, if_true] at h
        rcases hsc : storeCreate s1 updFinal with se | s2
        · rw [hsc] at h
          simp at h
        · rw [hsc] at h
          simp at h

/-- Witness for C10: a concrete upgrade whose orchestrator update fails
leaves the two-release store exactly as it was. -/
theorem UpdateRelease_apply_failure_frame_witness :
    UpdateRelease true (fun _ => .error "down") [relB1, relB2]
        { name := "b", chart := some 9, values := 10, dryRun := false, disableHooks := false }
        (.ok { hooks := [], manifest := "B3MANIFEST", notes := "" }) 40
      = (.error (.kubeErr "down"), [relB1, relB2],
         [.kube (.update "default" "B2MANIFEST" "B3MANIFEST")]) ∧
    ([relB1, relB2] : Store) = [relB1, relB2] :=
  ⟨rfl,
   UpdateRelease_apply_failure_frame (fun _ => .error "down") [relB1, relB2]
     { name := "b", chart := some 9, values := 10, dryRun := false, disableHooks := false }
     (.ok { hooks := [], manifest := "B3MANIFEST", notes := "" }) 40 "down"
     [relB1, relB2] [.kube (.update "default" "B2MANIFEST" "B3MANIFEST")] rfl⟩

/-- Witness for C2: a concrete upgrade of the deployed version 2 of `b`
creates version 3 and supersedes version 2. -/
theorem UpdateRelease_success_witness :
    ∃ cur s1,
      storeDeployed [relB1, relB2] "b" = .ok cur ∧
      relC3.version = cur.version + 1 ∧
      relC3.info.status.code = .deployed ∧
      relC3.info.firstDeployed = cur.info.firstDeployed ∧
      storeUpdate [relB1, relB2] (setStatusCode cur .superseded) = .ok s1 ∧
      storeCreate s1 relC3 = .ok [relB1, relB2sup, relC3] :=
  UpdateRelease_success (fun _ => .ok "") [relB1, relB2]
    { name := "b", chart := some 9, values := 10, dryRun := false, disableHooks := false }
    (.ok { hooks := [], manifest := "B3MANIFEST", notes := "" }) 40 relC3
    [relB1, relB2sup, relC3]
    [.kube (.update "default" "B2MANIFEST" "B3MANIFEST"),
     .store (.update relB2sup), .store (.create relC3)] rfl rfl

/-! ### C7 — list pagination -/

/-- C7: the limit of a list request defaults to 512 when 0; whenever the
filtered, sorted, offset-adjusted result list is longer than the
(non-negative) limit, exactly `limit` releases are returned and `next` is
the name of the first release past the page; otherwise `next` is empty and
the whole list is returned. -/
theorem ListReleases_limit_next (s : Store) (req : ListReq)
    (rmatch : String → String → Bool) (rels : List Release) (total : Int)
    (h1 : listProcess s req rmatch = .ok (rels, total)) (h2 : 0 ≤ req.limit) :
    effectiveLimit 0 = ListDefaultLimit ∧
    ∃ resp, ListReleases true s req rmatch = some (.ok resp) ∧
      ((rels.length : Int) > effectiveLimit req.limit →
        resp.releases = rels.take (effectiveLimit req.limit).toNat ∧
        (resp.releases.length : Int) = effectiveLimit req.limit ∧
        ∃ nxt rest, rels.drop (effectiveLimit req.limit).toNat = nxt :: rest ∧
          resp.next = nxt.name) ∧
      ((rels.length : Int) ≤ effectiveLimit req.limit →
        resp.next = "" ∧ resp.releases = rels) := by
  have hlim : 0 ≤ effectiveLimit req.limit := by
    unfold effectiveLimit ListDefaultLimit
    split <;> omega
  refine ⟨rfl, ?_⟩
  simp only [ListReleases, Bool.not_true, Bool.false_eq_true, if_false]
  rw [h1]
  simp only
  by_cases hgt : (rels.length : Int) > effectiveLimit req.limit
  · rw [if_pos hgt, if_neg (by omega : ¬ effectiveLimit req.limit < 0)]
    have hk : (effectiveLimit req.limit).toNat < rels.length := by omega
    rcases hdrop : rels.drop (effectiveLimit req.limit).toNat with _ | ⟨nxt, rest⟩
    · exfalso
      have := List.drop_eq_nil_iff.mp hdrop
      omega
    · refine ⟨_, rfl, ?_, ?_⟩
      · intro _
        refine ⟨rfl, ?_, nxt, rest, rfl, ?_⟩
        · simp only [List.length_take]
          omega
        · simp
      · intro hle
        omega
  · rw [if_neg hgt]
    refine ⟨_, rfl, ?_, ?_⟩
    · intro hc
      exact absurd hc hgt
    · intro _
      exact ⟨rfl, rfl⟩

/-- Witness for C7: listing two deployed releases with limit 1 returns one
release with `next` naming the second. -/
theorem ListReleases_limit_next_witness :
    effectiveLimit 0 = ListDefaultLimit ∧
    ∃ resp, ListReleases true [relE1, relE2] reqL (fun _ _ => true) = some (.ok resp) ∧
      ((([relE1, relE2].length : Int) > effectiveLimit reqL.limit →
        resp.releases = [relE1, relE2].take (effectiveLimit reqL.limit).toNat ∧
        (resp.releases.length : Int) = effectiveLimit reqL.limit ∧
        ∃ nxt rest, [relE1, relE2].drop (effectiveLimit reqL.limit).toNat = nxt :: rest ∧
          resp.next = nxt.name) ∧
      (([relE1, relE2].length : Int) ≤ effectiveLimit reqL.limit →
        resp.next = "" ∧ resp.releases = [relE1, relE2])) :=
  ListReleases_limit_next [relE1, relE2] reqL (fun _ _ => true) [relE1, relE2] 2
    rfl (by decide)

/-! ### C8 — hook execution -/

/-- Helper: an error-free hook run sets `last_run` on exactly the matching
hooks and its trace is the full submission trace in list order. -/
theorem execHookRun_none (kube : KubeClient) (ns : String) (code : Event)
    (now : Int) : ∀ (hs hs1 : List Hook) (tr : List KubeOp),
    execHookRun kube ns code now hs = (hs1, tr, none) →
    hs1 = hs.map (fun h => if h.events.contains code then { h with lastRun := some now } else h) ∧
    tr = hooksTrace ns code hs := by
  intro hs
  induction hs with
  | nil =>
    intro hs1 tr h
    rw [execHookRun] at h
    simp only [Prod.mk.injEq] at h
    exact ⟨h.1.symm, h.2.1.symm⟩
  | cons hd tl ih =>
    intro hs1 tr h
    rw [execHookRun] at h
    by_cases hm : hd.events.contains code
    · rw [if_pos hm] at h
      rcases hc : kube (.create ns hd.manifest) with e | v
      · rw [hc] at h; simp at h
      · rw [hc] at h
        simp only at h
        rcases hw : kube (.watchUntilReady ns hd.manifest) with e | w
        · rw [hw] at h; simp at h
        · rw [hw] at h
          simp only at h
          rcases hr : execHookRun kube ns code now tl with ⟨t1, tr1, e1⟩
          rw [hr] at h
          simp only [Prod.mk.injEq] at h
          obtain ⟨h1, h2, h3⟩ := h
          obtain ⟨ihm, iht⟩ := ih t1 tr1 (h3 ▸ hr)
          constructor
          · rw [← h1, ihm]
            simp only [List.map_cons]
            rw [if_pos hm]
          · rw [← h2, iht]
            simp only [hooksTrace]
            rw [if_pos hm]
            rfl
    · rw [if_neg hm] at h
      rcases hr : execHookRun kube ns code now tl with ⟨t1, tr1, e1⟩
      rw [hr] at h
      simp only [Prod.mk.injEq] at h
      obtain ⟨h1, h2, h3⟩ := h
      obtain ⟨ihm, iht⟩ := ih t1 tr1 (h3 ▸ hr)
      constructor
      · rw [← h1, ihm]
        simp only [List.map_cons]
        rw [if_neg hm]
      · rw [← h2, iht]
        simp only [hooksTrace]
        rw [if_neg hm]

/-- Helper: a failed hook run stops at the first matching hook whose
submission or readiness wait fails; every matching hook before it ran to
completion (and got its `last_run` set), the trace is the submission trace
up to and including the failing call, and the failing hook and everything
after it are untouched. -/
theorem execHookRun_some (kube : KubeClient) (ns : String) (code : Event)
    (now : Int) : ∀ (hs hs1 : List Hook) (tr : List KubeOp) (e : String),
    execHookRun kube ns code now hs = (hs1, tr, some e) →
    ∃ pre hf suf, hs = pre ++ hf :: suf ∧
      hf.events.contains code = true ∧
      (∀ p ∈ pre, p.events.contains code = true →
        (∃ v, kube (.create ns p.manifest) = .ok v) ∧
        (∃ v, kube (.watchUntilReady ns p.manifest) = .ok v)) ∧
      ((kube (.create ns hf.manifest) = .error e ∧
        tr = hooksTrace ns code pre ++ [.create ns hf.manifest]) ∨
       ((∃ v, kube (.create ns hf.manifest) = .ok v) ∧
        kube (.watchUntilReady ns hf.manifest) = .error e ∧
        tr = hooksTrace ns code pre ++ hookOps ns hf)) ∧
      hs1 = pre.map (fun h => if h.events.contains code then { h with lastRun := some now } else h)
        ++ hf :: suf := by
  intro hs
  induction hs with
  | nil =>
    intro hs1 tr e h
    rw [execHookRun] at h
    simp at h
  | cons hd tl ih =>
    intro hs1 tr e h
    rw [execHookRun] at h
    by_cases hm : hd.events.contains code
    · rw [if_pos hm] at h
      rcases hc : kube (.create ns hd.manifest) with e0 | v
      · rw [hc] at h
        simp only [Prod.mk.injEq] at h
        obtain ⟨h1, h2, h3⟩ := h
        injection h3 with h3
        refine ⟨[], hd, tl, by simp, hm, by simp, Or.inl ⟨h3 ▸ hc, ?_⟩, by simp [← h1]⟩
        rw [← h2]
        simp [hooksTrace]
      · rw [hc] at h
        simp only at h
        rcases hw : kube (.watchUntilReady ns hd.manifest) with e0 | w
        · rw [hw] at h
          simp only [Prod.mk.injEq] at h
          obtain ⟨h1, h2, h3⟩ := h
          injection h3 with h3
          refine ⟨[], hd, tl, by simp, hm, by simp,
            Or.inr ⟨⟨v, hc⟩, h3 ▸ hw, ?_⟩, by simp [← h1]⟩
          rw [← h2]
          simp [hooksTrace, hookOps]
        · rw [hw] at h
          simp only at h
          rcases hr : execHookRun kube ns code now tl with ⟨t1, tr1, e1⟩
          rw [hr] at h
          simp only [Prod.mk.injEq] at h
          obtain ⟨h1, h2, h3⟩ := h
          obtain ⟨pre, hf, suf, hsplit, hfm, hpre, hfail, hupd⟩ :=
            ih t1 tr1 e (h3 ▸ hr)
          refine ⟨hd :: pre, hf, suf, by simp [hsplit], hfm, ?_, ?_, ?_⟩
          · intro p hp hpm
            rcases List.mem_cons.mp hp with hp | hp
            · subst hp
              exact ⟨⟨v, hc⟩, ⟨w, hw⟩⟩
            · exact hpre p hp hpm
          · rcases hfail with ⟨hfc, htr⟩ | ⟨hfc, hfw, htr⟩
            · refine Or.inl ⟨hfc, ?_⟩
              rw [← h2, htr]
              simp only [hooksTrace]
              rw [if_pos hm]
              simp [hookOps]
            · refine Or.inr ⟨hfc, hfw, ?_⟩
              rw [← h2, htr]
              simp only [hooksTrace]
              rw [if_pos hm]
              simp [hookOps]
          · rw [← h1, hupd]
            simp only [List.map_cons]
            rw [if_pos hm]
            rfl
    · rw [if_neg hm] at h
      rcases hr : execHookRun kube ns code now tl with ⟨t1, tr1, e1⟩
      rw [hr] at h
      simp only [Prod.mk.injEq] at h
      obtain ⟨h1, h2, h3⟩ := h
      obtain ⟨pre, hf, suf, hsplit, hfm, hpre, hfail, hupd⟩ :=
        ih t1 tr1 e (h3 ▸ hr)
      refine ⟨hd :: pre, hf, suf, by simp [hsplit], hfm, ?_, ?_, ?_⟩
      · intro p hp hpm
        rcases List.mem_cons.mp hp with hp | hp
        · rw [hp] at hpm
          exact absurd hpm hm
        · exact hpre p hp hpm
      · rcases hfail with ⟨hfc, htr⟩ | ⟨hfc, hfw, htr⟩
        · refine Or.inl ⟨hfc, ?_⟩
          rw [← h2, htr]
          simp only [hooksTrace]
          rw [if_neg hm]
        · refine Or.inr ⟨hfc, hfw, ?_⟩
          rw [← h2, htr]
          simp only [hooksTrace]
          rw [if_neg hm]
      · rw [← h1, hupd]
        simp only [List.map_cons]
        rw [if_neg hm]
        rfl

/-- C8: for a hook-execution phase whose event string resolves to `code`:
on success, exactly the hooks whose `events` contain `code` were submitted
(create then readiness wait), sequentially in list order, and each of them
has `last_run` set to the current time while non-matching hooks are
untouched; on failure, the error of the first failing call is surfaced as
an orchestrator error, the matching hooks before the failing one completed
with `last_run` set, the trace stops at the failing call, and the failing
hook and all hooks after it are left untouched (in particular their
`last_run` stays unset). -/
theorem execHook_spec (kube : KubeClient) (hs : List Hook) (nm ns hook : String)
    (now : Int) (code : Event) (hev : events hook = some code) :
    (∀ hs1 tr, execHook kube hs nm ns hook now = (hs1, tr, none) →
      hs1 = hs.map (fun h => if h.events.contains code then { h with lastRun := some now } else h) ∧
      tr = hooksTrace ns code hs) ∧
    (∀ hs1 tr e', execHook kube hs nm ns hook now = (hs1, tr, some e') →
      ∃ e, e' = SrvErr.kubeErr e ∧
      ∃ pre hf suf, hs = pre ++ hf :: suf ∧
        hf.events.contains code = true ∧
        (∀ p ∈ pre, p.events.contains code = true →
          (∃ v, kube (.create ns p.manifest) = .ok v) ∧
          (∃ v, kube (.watchUntilReady ns p.manifest) = .ok v)) ∧
        ((kube (.create ns hf.manifest) = .error e ∧
          tr = hooksTrace ns code pre ++ [.create ns hf.manifest]) ∨
         ((∃ v, kube (.create ns hf.manifest) = .ok v) ∧
          kube (.watchUntilReady ns hf.manifest) = .error e ∧
          tr = hooksTrace ns code pre ++ hookOps ns hf)) ∧
        hs1 = pre.map (fun h => if h.events.contains code then { h with lastRun := some now } else h)
          ++ hf :: suf) := by
  have hunfold : execHook kube hs nm ns hook now =
      ((execHookRun kube ns code now hs).1, (execHookRun kube ns code now hs).2.1,
        Option.map SrvErr.kubeErr (execHookRun kube ns code now hs).2.2) := by
    rw [execHook, hev]
  constructor
  · intro hs1 tr h
    rw [hunfold] at h
    rcases hr : execHookRun kube ns code now hs with ⟨a, b, c⟩
    rw [hr] at h
    simp only [Prod.mk.injEq] at h
    obtain ⟨h1, h2, h3⟩ := h
    cases c with
    | some e => simp at h3
    | none =>
      obtain ⟨hm, ht⟩ := execHookRun_none kube ns code now hs a b hr
      exact ⟨h1 ▸ hm, h2 ▸ ht⟩
  · intro hs1 tr e' h
    rw [hunfold] at h
    rcases hr : execHookRun kube ns code now hs with ⟨a, b, c⟩
    rw [hr] at h
    simp only [Prod.mk.injEq] at h
    obtain ⟨h1, h2, h3⟩ := h
    cases c with
    | none => simp at h3
    | some e =>
      refine ⟨e, ?_, ?_⟩
      · rw [Option.map_some'] at h3
        injection h3 with h3
        exact h3.symm
      · obtain ⟨pre, hf, suf, hsplit, hfm, hpre, hfail, hupd⟩ :=
          execHookRun_some kube ns code now hs a b e hr
        exact ⟨pre, hf, suf, hsplit, hfm, hpre, h2 ▸ hfail, h1 ▸ hupd⟩

/-- Witness for C8: with an always-succeeding orchestrator, the single
pre-install hook is submitted and stamped. -/
theorem execHook_spec_witness :
    [{ hookA with lastRun := some 5 }] =
      [hookA].map (fun h => if h.events.contains Event.preInstallEv then { h with lastRun := some 5 } else h) ∧
    [KubeOp.create "default" "HOOKM", KubeOp.watchUntilReady "default" "HOOKM"] =
      hooksTrace "default" Event.preInstallEv [hookA] :=
  (execHook_spec (fun _ => .ok "") [hookA] "a" "default" preInstall 5
    Event.preInstallEv rfl).1
    [{ hookA with lastRun := some 5 }]
    [KubeOp.create "default" "HOOKM", KubeOp.watchUntilReady "default" "HOOKM"] rfl

end Helm
